import Mathlib

/-!
Shallow embedding of the `simpple-vm` hypervisor core (a minimal ARMv8-A
hypervisor front-end written in Rust) and verification of its specification.

The embedding follows the source files of the repository:
* `src/regs/iss/sys_reg.rs`   - trapped system-register ISS decoder
* `src/regs/iss/data_abort.rs` - Data-Abort ISS decoder used by the run loop
* `src/regs/esr_el2.rs`       - ESR_EL2 decode plus a duplicate Data-Abort ISS
* `src/mems/shared.rs`        - guest-physical segment registry (SharedMemory)
* `src/devices/mmio.rs`       - MMIO bus manager (size/alignment gate, routing)
* `src/devices/uart.rs`       - PL011 UART device model
* `src/devices/gpio.rs`       - PL061 GPIO device model

Machine integers (`u8`, `u32`, `u64`, `usize`) are modelled as `Nat` with
explicit truncation (`% 2^w`) or saturation where the source performs it.
Rust `usize::saturating_add` is modelled by `satAdd` capped at `usizeMax`.
Fallible Rust functions returning `Result` are modelled with `Except`;
a Rust `panic!` in a decoder is modelled by an explicit `none` / `panicked`
value, as noted at each definition.
-/

namespace SimppleVM

/-- `usize::MAX` on the 64-bit hosts the hypervisor targets
(the numeral is `2 ^ 64 - 1`). -/
def usizeMax : Nat := 18446744073709551615

/-- Model of Rust `usize::saturating_add`. -/
def satAdd (a b : Nat) : Nat := min (a + b) usizeMax

/-! ## Syndrome decoders (`src/regs/iss/*.rs`, `src/regs/esr_el2.rs`)

The Rust decoders are `bitfield!` views over a raw `u32`.  Each field
accessor extracts a contiguous bit range of the raw value; we model an ISS
as the raw `Nat` (always used modulo `2^32`) and the accessors as shifts
and masks.
-/

/-- The emulated system registers (`src/regs/mod.rs`): only the physical
counter is emulated today. -/
inductive EmulatedSystemRegister
  | CntpCtEl0
  deriving DecidableEq, Repr

namespace SysRegAbortISS

/-- Bits [21:20] - Op0 (`sys_reg.rs` bitfield). -/
def op0 (iss : Nat) : Nat := (iss >>> 20) &&& 0x3

/-- Bits [19:17] - Op2. -/
def op2 (iss : Nat) : Nat := (iss >>> 17) &&& 0x7

/-- Bits [16:14] - Op1. -/
def op1 (iss : Nat) : Nat := (iss >>> 14) &&& 0x7

/-- Bits [13:10] - CRn. -/
def crn (iss : Nat) : Nat := (iss >>> 10) &&& 0xF

/-- Bits [9:5] - Rt. -/
def rt (iss : Nat) : Nat := (iss >>> 5) &&& 0x1F

/-- Bits [4:1] - CRm. -/
def crm (iss : Nat) : Nat := (iss >>> 1) &&& 0xF

/-- `SysRegAbortISS::system_register` (`src/regs/iss/sys_reg.rs:112-120`).
The Rust function matches on the tuple `(op0, op1, crn, crm, op2)`; the two
counter encodings return `EmulatedSystemRegister::CntpCtEl0`, every other
tuple hits a `panic!("Unsupported system register access: ...")`.  The panic
arm is modelled by `none`. -/
def system_register (iss : Nat) : Option EmulatedSystemRegister :=
  match op0 iss, op1 iss, crn iss, crm iss, op2 iss with
  | 3, 7, 7, 12, 1 => some .CntpCtEl0
  | 3, 3, 14, 0, 1 => some .CntpCtEl0
  | _, _, _, _, _ => none

end SysRegAbortISS

namespace DataAbortISS

/-- Bits [23:22] - SAS, access size (`src/regs/iss/data_abort.rs`). -/
def sas (iss : Nat) : Nat := (iss >>> 22) &&& 0x3

/-- Bits [20:16] - SRT, transfer register. -/
def srt (iss : Nat) : Nat := (iss >>> 16) &&& 0x1F

/-- Bit [6] - WnR, "Write not Read". -/
def wnr (iss : Nat) : Bool := (iss >>> 6) &&& 0x1 = 1

/-- `DataAbortISS::is_write` of the decoder used by the run loop
(`src/regs/iss/data_abort.rs:58-60`): returns `self.wnr()`. -/
def is_write (iss : Nat) : Bool := wnr iss

end DataAbortISS

namespace EsrEl2DataAbortISS

/-- Bit [6] - WnR of the duplicate Data-Abort ISS decoder defined in
`src/regs/esr_el2.rs`. -/
def wnr (iss : Nat) : Bool := (iss >>> 6) &&& 0x1 = 1

/-- `DataAbortISS::is_write` of the duplicate decoder
(`src/regs/esr_el2.rs:286-288`): returns `!self.wnr()` (negated). -/
def is_write (iss : Nat) : Bool := ! wnr iss

end EsrEl2DataAbortISS

/-! ## SharedMemory (`src/mems/shared.rs`, errors from `src/mems/error.rs`)

`usize` quantities are modelled as `Nat`; `saturating_add` as `satAdd`.
Error messages built with `format!` are elided: each error constructor keeps
exactly the numeric fields of the Rust variant.  A Rust `panic!` that can be
reached inside the byte accessors (an `unwrap()` of `get_offset`, or an
out-of-bounds slice index `memory[offset..offset + size]`) is modelled by
the explicit `MemResult.panic` value. -/

/-- The variants of `MemoryError` (`src/mems/error.rs`) used by
`SharedMemory`; message strings are elided. -/
inductive MemoryError
  | SegmentationFault (address size : Nat)
  | InvalidAlignment (address alignment : Nat)
  | RegionOverlap (start stop : Nat)
  | InvalidSize (size : Nat)
  | OutOfMemory (requested : Nat)
  deriving DecidableEq, Repr

/-- Result of a memory operation: Rust `MemoryResult` plus an explicit
`panic` outcome for the panics reachable inside the accessors. -/
inductive MemResult (α : Type)
  | ok (value : α)
  | error (e : MemoryError)
  | panic
  deriving DecidableEq, Repr

/-- `Segment` (`src/mems/shared.rs:5-10`): guest-physical `[base, base+size)`
backed by `memory`, a boxed byte slice modelled as a list of byte values. -/
structure Segment where
  base : Nat
  size : Nat
  memory : List Nat
  deriving DecidableEq, Repr

/-- `Segment::new` (`shared.rs:13-19`): zero-filled backing store. -/
def Segment.new (base size : Nat) : Segment :=
  ⟨base, size, List.replicate size 0⟩

/-- `Segment::contains` (`shared.rs:21-23`):
`address >= base && address.saturating_add(size) <= base.saturating_add(self.size)`. -/
def Segment.contains (seg : Segment) (address size : Nat) : Bool :=
  decide (seg.base ≤ address) &&
    decide (satAdd address size ≤ satAdd seg.base seg.size)

/-- `Segment::get_offset` (`shared.rs:26-32`). -/
def Segment.get_offset (seg : Segment) (address : Nat) : Option Nat :=
  if seg.base ≤ address ∧ address < satAdd seg.base seg.size then
    some (address - seg.base)
  else
    none

/-- `SharedMemory` (`shared.rs:35-38`): the ordered list of segments. -/
structure SharedMemory where
  segments : List Segment
  deriving DecidableEq, Repr

/-- The three-way overlap test from the loop body of
`SharedMemory::add_segment` (`shared.rs:43-53`), with
`end = base.saturating_add(size)` and
`seg_end = segment.base.saturating_add(segment.size)`. -/
def overlap_check (base size : Nat) (segment : Segment) : Bool :=
  (decide (segment.base ≤ base) &&
      decide (base < satAdd segment.base segment.size)) ||
  (decide (segment.base < satAdd base size) &&
      decide (satAdd base size ≤ satAdd segment.base segment.size)) ||
  (decide (base ≤ segment.base) &&
      decide (satAdd segment.base segment.size ≤ satAdd base size))

/-- `SharedMemory::add_segment` (`shared.rs:41-62`).  The Rust `for` loop
returns `MemoryError::region_overlap(base, end)` at the first segment whose
three-way test fires; since the returned error does not depend on which
segment fired, the loop is modelled with `List.any`.  Note the loop runs
BEFORE the `size == 0` check. -/
def SharedMemory.add_segment (mem : SharedMemory) (base size : Nat) :
    Except MemoryError SharedMemory :=
  if mem.segments.any (overlap_check base size) then
    .error (.RegionOverlap base (satAdd base size))
  else if size = 0 then
    .error (.InvalidSize size)
  else
    .ok ⟨mem.segments ++ [Segment.new base size]⟩

/-- One `add_segment` call as a state transition: a failing call leaves the
state unchanged, exactly as the Rust method returns `Err` before pushing. -/
def SharedMemory.add_step (mem : SharedMemory) (op : Nat × Nat) : SharedMemory :=
  match mem.add_segment op.1 op.2 with
  | .ok m => m
  | .error _ => mem

/-- Fold a list of `(base, size)` requests through `add_segment` starting
from the default (empty) `SharedMemory`. -/
def SharedMemory.apply_adds (ops : List (Nat × Nat)) : SharedMemory :=
  ops.foldl SharedMemory.add_step ⟨[]⟩

/-- The in-segment part of `read_bytes` (`shared.rs:105-116`) applied to the
first containing segment: `get_offset(...).unwrap()` (panic on `None`) and
the slice `memory[offset..offset + size].to_vec()` (panic when out of
bounds). -/
def Segment.read_slice (seg : Segment) (address size : Nat) :
    MemResult (List Nat) :=
  match seg.get_offset address with
  | none => .panic
  | some offset =>
    if offset + size ≤ seg.memory.length then
      .ok ((seg.memory.drop offset).take size)
    else
      .panic

/-- The in-segment part of `write_bytes` (`shared.rs:118-133`):
`get_offset(...).unwrap()` and
`memory[offset..offset + size].copy_from_slice(data)`. -/
def Segment.write_slice (seg : Segment) (address : Nat) (data : List Nat) :
    MemResult Segment :=
  match seg.get_offset address with
  | none => .panic
  | some offset =>
    if offset + data.length ≤ seg.memory.length then
      .ok { seg with
              memory := seg.memory.take offset ++ data ++
                seg.memory.drop (offset + data.length) }
    else
      .panic

/-- `find_segment` (`shared.rs:65-80`) fused with the in-segment read: walk
the segment list, act on the first segment whose `contains` holds, and fail
with `SegmentationFault` when none does. -/
def readSegs : List Segment → Nat → Nat → MemResult (List Nat)
  | [], address, size => .error (.SegmentationFault address size)
  | seg :: rest, address, size =>
    if seg.contains address size then
      seg.read_slice address size
    else
      readSegs rest address size

/-- `find_segment_mut` (`shared.rs:83-102`) fused with the in-segment write:
replace the first containing segment by its updated copy. -/
def writeSegs : List Segment → Nat → List Nat → MemResult (List Segment)
  | [], address, data => .error (.SegmentationFault address data.length)
  | seg :: rest, address, data =>
    if seg.contains address data.length then
      match seg.write_slice address data with
      | .ok seg' => .ok (seg' :: rest)
      | .error e => .error e
      | .panic => .panic
    else
      match writeSegs rest address data with
      | .ok rest' => .ok (seg :: rest')
      | .error e => .error e
      | .panic => .panic

/-- `SharedMemory::read_bytes` (`shared.rs:105-116`): a zero-length read
returns an empty vector without touching memory. -/
def SharedMemory.read_bytes (mem : SharedMemory) (address size : Nat) :
    MemResult (List Nat) :=
  if size = 0 then .ok [] else readSegs mem.segments address size

/-- `SharedMemory::write_bytes` (`shared.rs:118-133`): a zero-length write
is a no-op. -/
def SharedMemory.write_bytes (mem : SharedMemory) (address : Nat)
    (data : List Nat) : MemResult SharedMemory :=
  if data.length = 0 then
    .ok mem
  else
    match writeSegs mem.segments address data with
    | .ok segs' => .ok ⟨segs'⟩
    | .error e => .error e
    | .panic => .panic

/-- Little-endian encoding of `v` into `n` bytes: `T::to_le_bytes` for the
unsigned type of byte width `n` (`shared.rs:271-293`). -/
def toLEBytes : Nat → Nat → List Nat
  | 0, _ => []
  | n + 1, v => v % 256 :: toLEBytes n (v / 256)

/-- Little-endian decoding: `T::from_le_bytes` (`shared.rs:245-269`). -/
def fromLEBytes : List Nat → Nat
  | [] => 0
  | b :: rest => b + 256 * fromLEBytes rest

/-- `SharedMemory::read::<T>` (`shared.rs:136-149`) for the unsigned type of
byte width `n`: read `n` bytes and decode little-endian.  The anyhow
context wrapper does not change the underlying error. -/
def SharedMemory.read (mem : SharedMemory) (address n : Nat) : MemResult Nat :=
  match mem.read_bytes address n with
  | .ok bytes => .ok (fromLEBytes bytes)
  | .error e => .error e
  | .panic => .panic

/-- `SharedMemory::write::<T>` (`shared.rs:151-163`) for the unsigned type
of byte width `n`: encode little-endian and write the bytes. -/
def SharedMemory.write (mem : SharedMemory) (address n v : Nat) :
    MemResult SharedMemory :=
  mem.write_bytes address (toLEBytes n v)

/-- Well-formedness of a `SharedMemory` state, from the data-model
invariants stated by the specification (§3): every segment's backing store
has exactly `size` bytes (guaranteed by `Segment::new`), and
`base + size` does not wrap the `usize` range. -/
def SharedMemory.WF (mem : SharedMemory) : Prop :=
  ∀ seg ∈ mem.segments,
    seg.memory.length = seg.size ∧ seg.base + seg.size ≤ usizeMax

/-- Saturated extent of a segment, `[base, base.saturating_add(size))`:
the address range `Segment::contains` tests against. -/
def Segment.stop (seg : Segment) : Nat := satAdd seg.base seg.size

/-- Two segments overlap when their saturated address ranges share a point. -/
def Segment.Overlaps (s1 s2 : Segment) : Prop :=
  max s1.base s2.base < min s1.stop s2.stop

/-! ## MMIO bus (`src/devices/mmio.rs`, errors from `src/err.rs`)

`MmioManager` keys regions by base address in a `BTreeMap`; we model it as
the list of regions in ascending base order.  A device behind the
`dyn MmioDevice` trait object is modelled by a state type `δ` together
with two transition functions (`read` and `write`) passed explicitly:
each takes the device state and returns the Rust result paired with the
possibly mutated state.  The manager's handlers return their result paired
with the manager's region list so that "the failed call left every device
unchanged" is expressible. -/

/-- The variants of `MmioError` (`src/err.rs:68-91`); message strings are
elided. -/
inductive MmioError
  | UnmappedAccess (addr : Nat)
  | InvalidAlignment (addr size : Nat)
  | InvalidSize (size : Nat)
  | DeviceError
  | OverlappingRegion (existing_start existing_end new_start new_end : Nat)
  deriving DecidableEq, Repr

/-- `MmioRegion` (`src/devices/mmio.rs:12-16`): base, length, and the
device state behind the trait object. -/
structure MmioRegion (δ : Type) where
  base_addr : Nat
  size : Nat
  device : δ
  deriving DecidableEq, Repr

/-- `self.regions.range_mut(..=addr).next_back()` on the `BTreeMap`
iterated in ascending base order: the last region whose base is `≤ addr`,
together with its position in the list. -/
def findLastLe {δ : Type} : List (MmioRegion δ) → Nat →
    Option (Nat × MmioRegion δ)
  | [], _ => none
  | r :: rest, addr =>
    match findLastLe rest addr with
    | some (i, s) => some (i + 1, s)
    | none => if r.base_addr ≤ addr then some (0, r) else none

/-- `MmioManager::find_region` (`src/devices/mmio.rs:81-95`): locate the
candidate region and verify `addr` lies inside it. -/
def find_region {δ : Type} (regions : List (MmioRegion δ)) (addr : Nat) :
    Except MmioError (Nat × MmioRegion δ) :=
  match findLastLe regions addr with
  | none => .error (.UnmappedAccess addr)
  | some (i, region) =>
    if region.base_addr ≤ addr ∧ addr < region.base_addr + region.size then
      .ok (i, region)
    else
      .error (.UnmappedAccess addr)

/-- `MmioManager::locate` (`src/devices/mmio.rs:48-64`): the access-size
gate (`size ∈ {1,2,4,8}`), the alignment gate (`addr & (size-1) == 0`),
region lookup, and the bounds check
`offset + size > region.size ⇒ UnmappedAccess`. -/
def locate {δ : Type} (regions : List (MmioRegion δ)) (addr size : Nat) :
    Except MmioError (Nat × MmioRegion δ) :=
  if ¬(size = 1 ∨ size = 2 ∨ size = 4 ∨ size = 8) then
    .error (.InvalidSize size)
  else if addr &&& (size - 1) ≠ 0 then
    .error (.InvalidAlignment addr size)
  else
    match find_region regions addr with
    | .error e => .error e
    | .ok (i, region) =>
      if addr - region.base_addr + size > region.size then
        .error (.UnmappedAccess addr)
      else
        .ok (i, region)

/-- `MmioManager::handle_write` (`src/devices/mmio.rs:66-72`): the result
is paired with the region list after the call (unchanged when `locate`
fails; the located region's device replaced by its post-`write` state
otherwise). -/
def handle_write {δ : Type} (devWrite : δ → Nat → Nat → Nat →
      Except MmioError Unit × δ)
    (regions : List (MmioRegion δ)) (addr size value : Nat) :
    Except MmioError Unit × List (MmioRegion δ) :=
  match locate regions addr size with
  | .error e => (.error e, regions)
  | .ok (i, region) =>
    let offset := addr - region.base_addr
    let res := devWrite region.device offset size value
    (res.1, regions.set i { region with device := res.2 })

/-- `MmioManager::handle_read` (`src/devices/mmio.rs:74-79`). -/
def handle_read {δ : Type} (devRead : δ → Nat → Nat →
      Except MmioError Nat × δ)
    (regions : List (MmioRegion δ)) (addr size : Nat) :
    Except MmioError Nat × List (MmioRegion δ) :=
  match locate regions addr size with
  | .error e => (.error e, regions)
  | .ok (i, region) =>
    let offset := addr - region.base_addr
    let res := devRead region.device offset size
    (res.1, regions.set i { region with device := res.2 })

/-! ## PL011 UART (`src/devices/uart.rs`)

Register values are `u32` (kept `< 2^32` by taking `value as u32` at each
write), FIFOs are byte queues, and the generic output interface `W` is
modelled as the list of bytes the device has handed to `write_all`.  The
`line_buffer` holds bytes not yet flushed to the output. -/

/-- `Pl011Device` state (`src/devices/uart.rs:37-58`).  `output` is the
byte stream accepted by the host-side sink `W`. -/
structure Pl011 where
  rx_fifo : List Nat
  tx_fifo : List Nat
  flags : Nat
  lcr_h : Nat
  cr : Nat
  imsc : Nat
  fifo_enabled : Bool
  rx_fifo_size : Nat
  tx_fifo_size : Nat
  line_buffer : List Nat
  output : List Nat
  deriving DecidableEq, Repr

/-- `update_status` (`uart.rs:135-154`): clear the four FIFO flag bits
(`flags &= !(RXFE|RXFF|TXFE|TXFF)`, i.e. `&= 0xFFFFFF0F` on `u32`), then
set `RXFE = 0x10`, `RXFF = 0x40`, `TXFE = 0x80`, `TXFF = 0x20` from the
FIFO states. -/
def Pl011.update_status (st : Pl011) : Pl011 :=
  let f0 := st.flags &&& 0xFFFFFF0F
  let f1 := if st.rx_fifo.isEmpty then f0 ||| 0x10 else f0
  let f2 := if st.rx_fifo.length ≥ st.rx_fifo_size then f1 ||| 0x40 else f1
  let f3 := if st.tx_fifo.isEmpty then f2 ||| 0x80 else f2
  let f4 := if st.tx_fifo.length ≥ st.tx_fifo_size then f3 ||| 0x20 else f3
  { st with flags := f4 }

/-- `Pl011Device::new` (`uart.rs:62-81`): reset register values
(`flags = TXFE|RXFE = 0x90`, `cr = TXE|RXE = 0x300`), FIFO depth 1,
followed by the constructor's `update_status()` call. -/
def Pl011.new : Pl011 :=
  Pl011.update_status
    { rx_fifo := [], tx_fifo := [], flags := 0x90, lcr_h := 0, cr := 0x300,
      imsc := 0, fifo_enabled := false, rx_fifo_size := 1, tx_fifo_size := 1,
      line_buffer := [], output := [] }

/-- `input_data` (`uart.rs:84-89`): push a received byte if the RX FIFO
has room, then recompute the flags. -/
def Pl011.input_data (st : Pl011) (data : Nat) : Pl011 :=
  Pl011.update_status
    (if st.rx_fifo.length < st.rx_fifo_size then
      { st with rx_fifo := st.rx_fifo ++ [data] }
    else
      st)

/-- `handle_transmitted_char` (`uart.rs:112-132`): `\n` (10) completes the
line (`write_all` of the buffer including the newline, then clear); `\r`
and every other byte are appended to the line buffer. -/
def Pl011.handle_transmitted_char (st : Pl011) (byte : Nat) : Pl011 :=
  if byte = 10 then
    { st with
        output := st.output ++ (st.line_buffer ++ [byte]),
        line_buffer := [] }
  else
    { st with line_buffer := st.line_buffer ++ [byte] }

/-- `write_dr` (`uart.rs:164-179`): silently return unless
`cr & (UARTEN|TXE) == UARTEN|TXE` (`0x101`); with room in the TX FIFO,
push the byte, transmit it, and pop it again; finally `update_status`. -/
def Pl011.write_dr (st : Pl011) (value : Nat) : Pl011 :=
  if st.cr &&& 0x101 ≠ 0x101 then
    st
  else
    Pl011.update_status
      (if st.tx_fifo.length < st.tx_fifo_size then
        let st1 := { st with tx_fifo := st.tx_fifo ++ [value] }
        let st2 := Pl011.handle_transmitted_char st1 value
        { st2 with tx_fifo := st2.tx_fifo.drop 1 }
      else
        st)

/-- `write_lcr_h` (`uart.rs:182-203`): store the register; when bit 4
(`FEN = 0x10`) differs from the current `fifo_enabled` state, switch the
FIFO depths between 16 and 1, clear both FIFOs, and recompute flags. -/
def Pl011.write_lcr_h (st : Pl011) (value : Nat) : Pl011 :=
  if (value &&& 0x10 != 0) = st.fifo_enabled then
    { st with lcr_h := value }
  else
    Pl011.update_status
      { st with
          lcr_h := value,
          fifo_enabled := (value &&& 0x10 != 0),
          rx_fifo_size := if (value &&& 0x10 != 0) then 16 else 1,
          tx_fifo_size := if (value &&& 0x10 != 0) then 16 else 1,
          rx_fifo := [], tx_fifo := [] }

/-- `MmioDevice::write` for PL011 (`uart.rs:249-271`): 4-byte accesses
only; DR, LCR_H, CR, IMSC are handled, ICR/FR/IBRD/FBRD are accepted and
ignored, every other offset is `UnmappedAccess`. -/
def Pl011.write (st : Pl011) (offset size value : Nat) :
    Except MmioError Pl011 :=
  if size ≠ 4 then
    .error (.InvalidSize size)
  else if offset = 0x000 then
    .ok (st.write_dr (value % 256))
  else if offset = 0x02C then
    .ok (st.write_lcr_h (value % 4294967296))
  else if offset = 0x030 then
    .ok { st with cr := value % 4294967296 }
  else if offset = 0x038 then
    .ok { st with imsc := value % 4294967296 }
  else if offset = 0x044 then
    .ok st
  else if offset = 0x018 then
    .ok st
  else if offset = 0x028 ∨ offset = 0x024 then
    .ok st
  else
    .error (.UnmappedAccess offset)

/-- The bytes the PL011 has handed to the host side: everything already
written to the sink `W` plus the pending line buffer. -/
def Pl011.sink (st : Pl011) : List Nat := st.output ++ st.line_buffer

/-! ## PL061 GPIO (`src/devices/gpio.rs`) -/

/-- `Pl061Gpio` state (`gpio.rs:40-49`): four `u8` registers. -/
structure Pl061 where
  data : Nat
  direction : Nat
  interrupt_enable : Nat
  afsel : Nat
  deriving DecidableEq, Repr

/-- `MmioDevice::write` for PL061 (`gpio.rs:123-162`): reject sizes that
are zero, above 8, or not powers of two; offsets `0x000..=0x3FC` perform
the masked data write with `mask = (offset >> 2) as u8` restricted by the
direction register; DIR/IE/AFSEL are direct byte writes; everything else
(including IC at `0x41C`) is accepted with no effect. -/
def Pl061.write (st : Pl061) (offset size value : Nat) :
    Except MmioError Pl061 :=
  if size > 8 ∨ size = 0 ∨ size &&& (size - 1) ≠ 0 then
    .error (.InvalidSize size)
  else if offset ≤ 0x3FC then
    .ok { st with data :=
      (st.data &&& (0xFF ^^^ ((offset >>> 2) % 256 &&& st.direction))) |||
        (value % 256 &&& ((offset >>> 2) % 256 &&& st.direction)) }
  else if offset = 0x400 then
    .ok { st with direction := value % 256 }
  else if offset = 0x410 then
    .ok { st with interrupt_enable := value % 256 }
  else if offset = 0x420 then
    .ok { st with afsel := value % 256 }
  else
    .ok st

end SimppleVM

namespace SimppleVM

/-- **C1.** The claim states that `system_register()` yields a
`SysRegNotFound` error result, rather than panicking, on every tuple other
than the two counter encodings.  In the source the function's return type is
the bare enum `EmulatedSystemRegister` and the catch-all arm is
`panic!("Unsupported system register access: ...")`; the `SysRegNotFound`
error variant declared in `src/err.rs:24-26` is never constructed anywhere
in the repository.  This theorem evaluates the decoder: the two counter
encodings (raw ISS `0x33DC18` decodes to `(3,7,7,12,1)` and `0x32F800` to
`(3,3,14,0,1)`) return the counter identity, while the unmapped tuple
`(0,0,0,0,0)` (raw ISS `0`) reaches the panic arm (modelled as `none`)
instead of any error result. -/
theorem sysreg_decode_panics_on_unmapped_tuple :
    SysRegAbortISS.system_register 0x33DC18 = some .CntpCtEl0 ∧
    SysRegAbortISS.system_register 0x32F800 = some .CntpCtEl0 ∧
    SysRegAbortISS.system_register 0 = none := by
  refine ⟨rfl, rfl, rfl⟩

/-- **C2.** The claim states that `is_write()` returns `true` exactly when
bit 6 (WnR) of the ISS is 1, both for the Data-Abort ISS decoder used by the
run loop (`src/regs/iss/data_abort.rs`) and for the duplicate decoder in
`src/regs/esr_el2.rs`.  The run-loop decoder satisfies this for every
32-bit ISS, but the duplicate decoder returns the negation: at ISS `0x40`
(only bit 6 set) it returns `false`, and at ISS `0` it returns `true`.
The first conjunct proves the law for the run-loop decoder on every ISS;
the last two conjuncts evaluate the duplicate decoder at the failed inputs. -/
theorem data_abort_is_write_bit6 :
    (∀ iss : Nat, DataAbortISS.is_write iss = iss.testBit 6) ∧
    EsrEl2DataAbortISS.is_write 0x40 = false ∧
    EsrEl2DataAbortISS.is_write 0 = true := by
  refine ⟨fun iss => ?_, rfl, rfl⟩
  simp [DataAbortISS.is_write, DataAbortISS.wnr, Nat.testBit_to_div_mod,
    Nat.and_one_is_mod, Nat.shiftRight_eq_div_pow]

end SimppleVM

namespace SimppleVM

/-- If the three-way test of `add_segment` rejects a segment, the candidate
range `[base, base.saturating_add(size))` and the segment's saturated range
are disjoint. -/
theorem overlap_check_false_disjoint {b s : Nat} {seg : Segment}
    (h : overlap_check b s seg = false) :
    min (satAdd b s) seg.stop ≤ max b seg.base := by
  simp only [overlap_check, satAdd, Segment.stop, usizeMax,
    Bool.or_eq_false_iff, Bool.and_eq_false_iff, decide_eq_false_iff_not,
    not_le, not_lt] at h ⊢
  omega

/-- Conversely, if the candidate range meets the segment's saturated range,
the three-way test of `add_segment` fires. -/
theorem overlap_check_true_of_lt {b s : Nat} {seg : Segment}
    (h : max b seg.base < min (satAdd b s) seg.stop) :
    overlap_check b s seg = true := by
  simp only [overlap_check, satAdd, Segment.stop, usizeMax,
    Bool.or_eq_true, Bool.and_eq_true, decide_eq_true_eq] at h ⊢
  omega

/-- Anatomy of a successful `add_segment`: the new segment is pushed at the
end, and no existing segment fired the overlap test. -/
theorem add_segment_ok_elim {mem mem' : SharedMemory} {b s : Nat}
    (h : mem.add_segment b s = .ok mem') :
    mem'.segments = mem.segments ++ [Segment.new b s] ∧
      ∀ seg ∈ mem.segments, overlap_check b s seg = false := by
  unfold SharedMemory.add_segment at h
  by_cases h1 : mem.segments.any (overlap_check b s) = true
  · rw [if_pos h1] at h
    exact absurd h (by simp)
  · rw [if_neg h1] at h
    by_cases h2 : s = 0
    · rw [if_pos h2] at h
      exact absurd h (by simp)
    · rw [if_neg h2] at h
      injection h with h
      refine ⟨by rw [← h], ?_⟩
      intro seg hs
      by_contra hc
      exact h1 (List.any_eq_true.mpr
        ⟨seg, hs, eq_true_of_ne_false hc⟩)

/-- A successful `add_segment` preserves pairwise disjointness of the
saturated segment ranges. -/
theorem add_segment_preserves_pairwise {mem mem' : SharedMemory} {b s : Nat}
    (hp : mem.segments.Pairwise fun s1 s2 => ¬ s1.Overlaps s2)
    (h : mem.add_segment b s = .ok mem') :
    mem'.segments.Pairwise fun s1 s2 => ¬ s1.Overlaps s2 := by
  obtain ⟨hseg, hall⟩ := add_segment_ok_elim h
  rw [hseg, List.pairwise_append]
  refine ⟨hp, by simp, ?_⟩
  intro a ha c hc
  simp only [List.mem_singleton] at hc
  subst hc
  intro hov
  have hlt : max b a.base < min (satAdd b s) a.stop := by
    simp only [Segment.Overlaps, Segment.stop, Segment.new, satAdd,
      usizeMax] at hov ⊢
    omega
  have hfire := overlap_check_true_of_lt hlt
  rw [hall a ha] at hfire
  exact Bool.false_ne_true hfire

/-- `add_step` preserves pairwise disjointness (a failed call leaves the
state unchanged). -/
theorem add_step_pairwise (mem : SharedMemory) (op : Nat × Nat)
    (hp : mem.segments.Pairwise fun s1 s2 => ¬ s1.Overlaps s2) :
    (mem.add_step op).segments.Pairwise fun s1 s2 => ¬ s1.Overlaps s2 := by
  unfold SharedMemory.add_step
  cases h : mem.add_segment op.1 op.2 with
  | ok m => exact add_segment_preserves_pairwise hp h
  | error e => exact hp

/-- Folding any request list through `add_step` preserves pairwise
disjointness. -/
theorem foldl_add_step_pairwise (ops : List (Nat × Nat)) :
    ∀ mem : SharedMemory,
      (mem.segments.Pairwise fun s1 s2 => ¬ s1.Overlaps s2) →
      ((ops.foldl SharedMemory.add_step mem).segments.Pairwise
        fun s1 s2 => ¬ s1.Overlaps s2) := by
  induction ops with
  | nil => intro mem hp; simpa using hp
  | cons op rest ih =>
    intro mem hp
    simpa using ih (mem.add_step op) (add_step_pairwise mem op hp)

end SimppleVM

namespace SimppleVM

/-- **C4.** Segment non-overlap.  First conjunct: after any sequence of
`add_segment` calls starting from the empty `SharedMemory` (failed calls
change nothing), the resulting segments are pairwise non-overlapping.
Second conjunct: an `add_segment` call whose range
`[base, base.saturating_add(size))` intersects the saturated range of an
existing segment fails with `RegionOverlap` (and hence, since the Rust
method returns before pushing, leaves the segment list unchanged). -/
theorem add_segment_no_overlap :
    (∀ ops : List (Nat × Nat),
        (SharedMemory.apply_adds ops).segments.Pairwise
          fun s1 s2 => ¬ s1.Overlaps s2) ∧
    (∀ (mem : SharedMemory) (b s : Nat),
        (∃ seg ∈ mem.segments,
            max b seg.base < min (satAdd b s) seg.stop) →
        mem.add_segment b s = .error (.RegionOverlap b (satAdd b s))) := by
  constructor
  · intro ops
    exact foldl_add_step_pairwise ops ⟨[]⟩ (by simp)
  · intro mem b s ⟨seg, hmem, hlt⟩
    have hany : mem.segments.any (overlap_check b s) = true :=
      List.any_eq_true.mpr ⟨seg, hmem, overlap_check_true_of_lt hlt⟩
    unfold SharedMemory.add_segment
    rw [if_pos hany]

/-- Witness for C4 at concrete inputs: two disjoint requests leave a
pairwise-disjoint state, and adding `[4, 12)` over the existing `[0, 8)`
fails with `RegionOverlap`. -/
theorem add_segment_no_overlap_witness :
    ((SharedMemory.apply_adds [(0, 8), (16, 8)]).segments.Pairwise
      fun s1 s2 => ¬ s1.Overlaps s2) ∧
    SharedMemory.add_segment ⟨[Segment.new 0 8]⟩ 4 8 =
      .error (.RegionOverlap 4 (satAdd 4 8)) :=
  ⟨add_segment_no_overlap.1 [(0, 8), (16, 8)],
    add_segment_no_overlap.2 ⟨[Segment.new 0 8]⟩ 4 8
      ⟨Segment.new 0 8, by simp, by decide⟩⟩

/-- **C3.** Counterexample.  The claim states that `add_segment` with
`size == 0` fails with `InvalidSize` and in particular never with
`RegionOverlap`.  But the overlap loop runs before the `size == 0` check
(`shared.rs:43-57`), and its second disjunct
`end > segment.base && end <= seg_end` fires for the degenerate range at
`base = 0x1500` inside the existing segment `[0x1000, 0x2000)`, so the call
returns `RegionOverlap`, not `InvalidSize`. -/
theorem add_segment_zero_size_counterexample :
    SharedMemory.add_segment ⟨[Segment.new 0x1000 0x1000]⟩ 0x1500 0 =
        .error (.RegionOverlap 0x1500 0x1500) ∧
    SharedMemory.add_segment ⟨[Segment.new 0x1000 0x1000]⟩ 0x1500 0 ≠
        .error (.InvalidSize 0) := by
  have h0 : SharedMemory.add_segment ⟨[Segment.new 0x1000 0x1000]⟩ 0x1500 0 =
      .error (.RegionOverlap 0x1500 0x1500) := rfl
  exact ⟨h0, by rw [h0]; simp⟩

/-- **C3 (amended).** `add_segment` with `size == 0` always fails and never
adds a segment; it fails with `RegionOverlap base base` when the degenerate
zero-length range trips the overlap test against some existing segment, and
with `InvalidSize` otherwise. -/
theorem add_segment_zero_size_amended (segs : List Segment) (base : Nat) :
    SharedMemory.add_segment ⟨segs⟩ base 0 =
      .error
        (if segs.any (overlap_check base 0) then
          .RegionOverlap base (satAdd base 0)
        else
          .InvalidSize 0) := by
  unfold SharedMemory.add_segment
  by_cases h : segs.any (overlap_check base 0) <;> simp [h]

end SimppleVM

namespace SimppleVM

/-- `saturating_add` is plain addition when the sum stays in range. -/
theorem satAdd_eq_of_le {x y : Nat} (h : x + y ≤ usizeMax) :
    satAdd x y = x + y := by
  simp only [satAdd, usizeMax] at *
  omega

/-- `to_le_bytes` for a width-`n` unsigned type yields `n` bytes. -/
theorem toLEBytes_length (n v : Nat) : (toLEBytes n v).length = n := by
  induction n generalizing v with
  | zero => rfl
  | succ n ih => simp [toLEBytes, ih]

/-- Little-endian decode of the little-endian encoding reduces the value
modulo `256 ^ n`. -/
theorem fromLEBytes_toLEBytes (n v : Nat) :
    fromLEBytes (toLEBytes n v) = v % 256 ^ n := by
  induction n generalizing v with
  | zero => simp [toLEBytes, fromLEBytes, Nat.mod_one]
  | succ n ih =>
    simp only [toLEBytes, fromLEBytes, ih]
    rw [Nat.pow_succ, Nat.mul_comm (256 ^ n) 256, Nat.mod_mul]

/-- Mathematical containment of `[a, a+n)` in a segment implies the
saturating `Segment::contains` test. -/
theorem contains_of_le {seg : Segment} {a n : Nat}
    (h1 : seg.base ≤ a) (h2 : a + n ≤ seg.base + seg.size) :
    seg.contains a n = true := by
  simp only [Segment.contains, satAdd, usizeMax, Bool.and_eq_true,
    decide_eq_true_eq] at *
  omega

/-- When no segment passes `contains`, the fused find-and-read fails with
`SegmentationFault`. -/
theorem readSegs_fault (a n : Nat) :
    ∀ segs : List Segment, (∀ seg ∈ segs, seg.contains a n = false) →
      readSegs segs a n = .error (.SegmentationFault a n) := by
  intro segs
  induction segs with
  | nil => intro _; rfl
  | cons seg rest ih =>
    intro h
    have hc := h seg (List.mem_cons_self _ _)
    simp [readSegs, hc, ih fun s hs => h s (List.mem_cons_of_mem _ hs)]

/-- When no segment passes `contains`, the fused find-and-write fails with
`SegmentationFault`. -/
theorem writeSegs_fault (a : Nat) (data : List Nat) :
    ∀ segs : List Segment,
      (∀ seg ∈ segs, seg.contains a data.length = false) →
      writeSegs segs a data = .error (.SegmentationFault a data.length) := by
  intro segs
  induction segs with
  | nil => intro _; rfl
  | cons seg rest ih =>
    intro h
    have hc := h seg (List.mem_cons_self _ _)
    simp [writeSegs, hc, ih fun s hs => h s (List.mem_cons_of_mem _ hs)]

/-- Unfolding equation: `writeSegs` on a cons whose head contains the
range. -/
theorem writeSegs_cons_true {seg : Segment} {rest : List Segment} {a : Nat}
    {data : List Nat} (hc : seg.contains a data.length = true) :
    writeSegs (seg :: rest) a data =
      match seg.write_slice a data with
      | .ok seg' => .ok (seg' :: rest)
      | .error e => .error e
      | .panic => .panic := by
  conv_lhs => unfold writeSegs
  rw [hc]
  exact if_pos rfl

/-- Unfolding equation: `writeSegs` skips a head that does not contain the
range. -/
theorem writeSegs_cons_false {seg : Segment} {rest : List Segment} {a : Nat}
    {data : List Nat} (hc : seg.contains a data.length = false) :
    writeSegs (seg :: rest) a data =
      match writeSegs rest a data with
      | .ok rest' => .ok (seg :: rest')
      | .error e => .error e
      | .panic => .panic := by
  conv_lhs => unfold writeSegs
  rw [hc]
  exact if_neg Bool.false_ne_true

/-- Unfolding equation: `readSegs` on a cons whose head contains the
range. -/
theorem readSegs_cons_true {seg : Segment} {rest : List Segment} {a n : Nat}
    (hc : seg.contains a n = true) :
    readSegs (seg :: rest) a n = seg.read_slice a n := by
  conv_lhs => unfold readSegs
  rw [hc]
  exact if_pos rfl

/-- Unfolding equation: `readSegs` skips a head that does not contain the
range. -/
theorem readSegs_cons_false {seg : Segment} {rest : List Segment} {a n : Nat}
    (hc : seg.contains a n = false) :
    readSegs (seg :: rest) a n = readSegs rest a n := by
  conv_lhs => unfold readSegs
  rw [hc]
  exact if_neg Bool.false_ne_true

/-- Core of the round-trip: on a well-formed segment list, a write of
non-empty `data` whose range sits inside some segment succeeds, and reading
the same range from the updated list returns exactly `data`. -/
theorem writeSegs_readSegs (a : Nat) (data : List Nat) :
    ∀ segs : List Segment,
      (∀ seg ∈ segs, seg.memory.length = seg.size ∧
        seg.base + seg.size ≤ usizeMax) →
      (∃ seg ∈ segs, seg.base ≤ a ∧ a + data.length ≤ seg.base + seg.size) →
      0 < data.length →
      ∃ segs', writeSegs segs a data = .ok segs' ∧
        readSegs segs' a data.length = .ok data := by
  intro segs
  induction segs with
  | nil => intro _ hex _; simp at hex
  | cons seg rest ih =>
    intro hwf hex hpos
    have hwf_head := hwf seg (List.mem_cons_self _ _)
    have hwf_rest : ∀ s ∈ rest, s.memory.length = s.size ∧
        s.base + s.size ≤ usizeMax :=
      fun s hs => hwf s (List.mem_cons_of_mem _ hs)
    have haM : a + data.length ≤ usizeMax := by
      obtain ⟨w, hw, _, hwe⟩ := hex
      exact le_trans hwe (hwf w hw).2
    cases hc : seg.contains a data.length with
    | true =>
      have h1 : seg.base ≤ a ∧
          satAdd a data.length ≤ satAdd seg.base seg.size := by
        simpa [Segment.contains, Bool.and_eq_true, decide_eq_true_eq]
          using hc
      have hba : seg.base ≤ a := h1.1
      have hlen : a + data.length ≤ seg.base + seg.size := by
        have h2 := h1.2
        rw [satAdd_eq_of_le haM, satAdd_eq_of_le hwf_head.2] at h2
        exact h2
      have hmemlen : a - seg.base + data.length ≤ seg.memory.length := by
        rw [hwf_head.1]; omega
      have hoff : seg.get_offset a = some (a - seg.base) := by
        simp only [Segment.get_offset, satAdd_eq_of_le hwf_head.2]
        rw [if_pos ⟨hba, by omega⟩]
      have hws : seg.write_slice a data = .ok
          { seg with memory := seg.memory.take (a - seg.base) ++ data ++
              seg.memory.drop (a - seg.base + data.length) } := by
        simp only [Segment.write_slice, hoff]
        rw [if_pos hmemlen]
      refine ⟨{ seg with memory := seg.memory.take (a - seg.base) ++ data ++
          seg.memory.drop (a - seg.base + data.length) } :: rest, ?_, ?_⟩
      · rw [writeSegs_cons_true hc, hws]
      · have htakelen :
            (seg.memory.take (a - seg.base)).length = a - seg.base := by
          rw [List.length_take]; omega
        have hlen' :
            (seg.memory.take (a - seg.base) ++ data ++
              seg.memory.drop (a - seg.base + data.length)).length =
            seg.memory.length := by
          simp only [List.length_append, htakelen, List.length_drop]
          omega
        have hc' :
            ({ seg with memory := seg.memory.take (a - seg.base) ++ data ++
                seg.memory.drop (a - seg.base + data.length) } :
              Segment).contains a data.length = true := hc
        have hoff' :
            ({ seg with memory := seg.memory.take (a - seg.base) ++ data ++
                seg.memory.drop (a - seg.base + data.length) } :
              Segment).get_offset a = some (a - seg.base) := hoff
        have hextract :
            ((seg.memory.take (a - seg.base) ++ data ++
              seg.memory.drop (a - seg.base + data.length)).drop
                (a - seg.base)).take data.length = data := by
          rw [List.append_assoc, List.drop_left' htakelen,
            List.take_left' rfl]
        rw [readSegs_cons_true hc']
        simp only [Segment.read_slice, hoff', hlen']
        rw [if_pos hmemlen, hextract]
    | false =>
      have hex' : ∃ s ∈ rest, s.base ≤ a ∧
          a + data.length ≤ s.base + s.size := by
        obtain ⟨w, hw, hwb, hwe⟩ := hex
        rcases List.mem_cons.mp hw with h | h
        · subst h
          rw [contains_of_le hwb hwe] at hc
          exact absurd hc (by simp)
        · exact ⟨w, h, hwb, hwe⟩
      obtain ⟨rest', hw', hr'⟩ := ih hwf_rest hex' hpos
      refine ⟨seg :: rest', ?_, ?_⟩
      · rw [writeSegs_cons_false hc, hw']
      · rw [readSegs_cons_false hc, hr']

end SimppleVM

namespace SimppleVM

/-- **C5.** Typed memory round-trip, for the unsigned widths
`N ∈ {8,16,32,64}` (`n = N/8` bytes).  First conjunct: for a well-formed
`SharedMemory` (spec §3 invariants: backing stores of exact length, no
`usize` wrap), writing a width-`N` value `v` at an address `a` whose range
`[a, a+n)` lies inside a single segment succeeds, and reading it back
returns `v`.  Second conjunct: when no single segment contains the range
(the `Segment::contains` test fails everywhere, e.g. the access spans a
segment boundary), both the write and the read fail with
`SegmentationFault`. -/
theorem typed_rw_roundtrip (mem : SharedMemory) (a n v : Nat)
    (hwf : mem.WF) (hn : n = 1 ∨ n = 2 ∨ n = 4 ∨ n = 8) :
    (v < 2 ^ (8 * n) →
      (∃ seg ∈ mem.segments, seg.base ≤ a ∧ a + n ≤ seg.base + seg.size) →
      ∃ mem', mem.write a n v = .ok mem' ∧ mem'.read a n = .ok v) ∧
    ((∀ seg ∈ mem.segments, seg.contains a n = false) →
      mem.write a n v = .error (.SegmentationFault a n) ∧
      mem.read a n = .error (.SegmentationFault a n)) := by
  have hn0 : n ≠ 0 := by rcases hn with h | h | h | h <;> omega
  have hlen := toLEBytes_length n v
  constructor
  · intro hv hex
    have hv' : v < 256 ^ n := by
      have h28 : (2 : Nat) ^ (8 * n) = 256 ^ n := by
        rw [pow_mul]; norm_num
      rw [h28] at hv; exact hv
    have hex' : ∃ seg ∈ mem.segments, seg.base ≤ a ∧
        a + (toLEBytes n v).length ≤ seg.base + seg.size := by
      rw [hlen]; exact hex
    have hpos : 0 < (toLEBytes n v).length := by rw [hlen]; omega
    obtain ⟨segs', hw, hr⟩ :=
      writeSegs_readSegs a (toLEBytes n v) mem.segments hwf hex' hpos
    refine ⟨⟨segs'⟩, ?_, ?_⟩
    · unfold SharedMemory.write SharedMemory.write_bytes
      rw [if_neg (by rw [hlen]; exact hn0), hw]
    · unfold SharedMemory.read SharedMemory.read_bytes
      rw [hlen] at hr
      rw [if_neg hn0]
      show (match readSegs segs' a n with
        | .ok bytes => MemResult.ok (fromLEBytes bytes)
        | .error e => MemResult.error e
        | .panic => MemResult.panic) = .ok v
      rw [hr]
      show MemResult.ok (fromLEBytes (toLEBytes n v)) = .ok v
      rw [fromLEBytes_toLEBytes, Nat.mod_eq_of_lt hv']
  · intro hnone
    constructor
    · unfold SharedMemory.write SharedMemory.write_bytes
      rw [if_neg (by rw [hlen]; exact hn0),
        writeSegs_fault a (toLEBytes n v) mem.segments
          (by rw [hlen]; exact hnone), hlen]
    · unfold SharedMemory.read SharedMemory.read_bytes
      rw [if_neg hn0]
      show (match readSegs mem.segments a n with
        | .ok bytes => MemResult.ok (fromLEBytes bytes)
        | .error e => MemResult.error e
        | .panic => MemResult.panic) = .error (.SegmentationFault a n)
      rw [readSegs_fault a n mem.segments hnone]

/-- Witness for C5 at concrete inputs: a 4-byte round-trip inside the
16-byte segment at `0x1000`, and a faulting 4-byte read at the unmapped
address `0x2000`. -/
theorem typed_rw_roundtrip_witness :
    (∃ mem', (SharedMemory.mk [Segment.new 0x1000 16]).write 0x1004 4
          0x12345678 = .ok mem' ∧
        mem'.read 0x1004 4 = .ok 0x12345678) ∧
    (SharedMemory.mk [Segment.new 0x1000 16]).read 0x2000 4 =
      .error (.SegmentationFault 0x2000 4) :=
  ⟨(typed_rw_roundtrip ⟨[Segment.new 0x1000 16]⟩ 0x1004 4 0x12345678
      (by unfold SharedMemory.WF; decide) (by decide)).1
      (by decide) (by decide),
    ((typed_rw_roundtrip ⟨[Segment.new 0x1000 16]⟩ 0x2000 4 0x12345678
      (by unfold SharedMemory.WF; decide) (by decide)).2 (by decide)).2⟩

end SimppleVM

namespace SimppleVM

/-- **C6.** The MMIO access gate: `handle_read` and `handle_write` fail
with `InvalidSize` for every `size ∉ {1,2,4,8}` and with
`InvalidAlignment` for every in-range size with `addr & (size-1) ≠ 0`,
for every device-state type, every pair of device transition functions,
and every registered region list - the gate runs before any lookup or
device dispatch. -/
theorem mmio_access_gate {δ : Type}
    (devRead : δ → Nat → Nat → Except MmioError Nat × δ)
    (devWrite : δ → Nat → Nat → Nat → Except MmioError Unit × δ)
    (regions : List (MmioRegion δ)) (addr size value : Nat) :
    (¬(size = 1 ∨ size = 2 ∨ size = 4 ∨ size = 8) →
      (handle_read devRead regions addr size).1 =
        .error (.InvalidSize size) ∧
      (handle_write devWrite regions addr size value).1 =
        .error (.InvalidSize size)) ∧
    ((size = 1 ∨ size = 2 ∨ size = 4 ∨ size = 8) →
      addr &&& (size - 1) ≠ 0 →
      (handle_read devRead regions addr size).1 =
        .error (.InvalidAlignment addr size) ∧
      (handle_write devWrite regions addr size value).1 =
        .error (.InvalidAlignment addr size)) := by
  constructor
  · intro h
    have hl : locate regions addr size =
        .error (.InvalidSize size) := by
      unfold locate
      rw [if_pos h]
    constructor
    · unfold handle_read
      rw [hl]
    · unfold handle_write
      rw [hl]
  · intro h ha
    have hl : locate regions addr size =
        .error (.InvalidAlignment addr size) := by
      unfold locate
      rw [if_neg (not_not_intro h), if_pos ha]
    constructor
    · unfold handle_read
      rw [hl]
    · unfold handle_write
      rw [hl]

/-- Witness for C6 at concrete inputs: size 7 is rejected as `InvalidSize`
and a 4-byte access at the odd address 3 as `InvalidAlignment`, on an empty
manager over trivial unit devices. -/
theorem mmio_access_gate_witness :
    (handle_read (δ := Unit) (fun d _ _ => (.ok 0, d)) [] 3 7).1 =
      .error (.InvalidSize 7) ∧
    (handle_write (δ := Unit) (fun d _ _ _ => (.ok (), d)) [] 3 4 0).1 =
      .error (.InvalidAlignment 3 4) :=
  ⟨((mmio_access_gate (fun d _ _ => (.ok 0, d))
      (fun d _ _ _ => (.ok (), d)) [] 3 7 0).1 (by decide)).1,
    ((mmio_access_gate (fun d _ _ => (.ok 0, d))
      (fun d _ _ _ => (.ok (), d)) [] 3 4 0).2 (by decide) (by decide)).2⟩

/-- **C10.** When the manager's own gate rejects an access - `locate`
returns `InvalidSize`, `InvalidAlignment`, or `UnmappedAccess` (no
registered region containing the full range `[addr, addr+size)`) - both
handlers return that error and the region list, including every registered
device's state, is unchanged: no device `read` or `write` is invoked. -/
theorem mmio_gate_error_preserves_state {δ : Type}
    (devRead : δ → Nat → Nat → Except MmioError Nat × δ)
    (devWrite : δ → Nat → Nat → Nat → Except MmioError Unit × δ)
    (regions : List (MmioRegion δ)) (addr size value : Nat)
    (e : MmioError) (h : locate regions addr size = .error e) :
    handle_read devRead regions addr size = (.error e, regions) ∧
    handle_write devWrite regions addr size value = (.error e, regions) := by
  constructor
  · unfold handle_read
    rw [h]
  · unfold handle_write
    rw [h]

/-- Witness for C10 at a concrete input: the unmapped address 0 on an
empty manager (the gate fails with `UnmappedAccess 0`, both handlers
return it and the manager is unchanged). -/
theorem mmio_gate_error_preserves_state_witness :
    handle_read (δ := Unit) (fun d _ _ => (.ok 0, d)) [] 0 4 =
      (.error (.UnmappedAccess 0), []) ∧
    handle_write (δ := Unit) (fun d _ _ _ => (.ok (), d)) [] 0 4 5 =
      (.error (.UnmappedAccess 0), []) :=
  mmio_gate_error_preserves_state (fun d _ _ => (.ok 0, d))
    (fun d _ _ _ => (.ok (), d)) [] 0 4 5 (.UnmappedAccess 0) rfl

end SimppleVM

namespace SimppleVM

/-- **C7.** Counterexample.  The claim states that EVERY 4-byte write to
`LCR_H` (offset `0x02C`) with bit 4 set leaves both FIFOs empty with
`FR = TXFE|RXFE` (`0x90`).  But `write_lcr_h` only resets the FIFOs when
the FEN bit CHANGES (`uart.rs:186`).  Concretely: from reset, enable the
FIFOs (first `0x10` write), receive one byte (`input_data 0x41`), then
write `0x10` to `LCR_H` again - the RX FIFO still holds the byte and the
flag register reads `0x80` (TXFE only), not `TXFE|RXFE`. -/
theorem lcr_h_write_counterexample :
    ∃ s1 s3 : Pl011,
      Pl011.write Pl011.new 0x02C 4 0x10 = .ok s1 ∧
      Pl011.write (s1.input_data 0x41) 0x02C 4 0x10 = .ok s3 ∧
      s3.rx_fifo ≠ [] ∧ s3.flags ≠ 0x90 := by
  refine ⟨⟨[], [], 0x90, 0x10, 0x300, 0, true, 16, 16, [], []⟩,
    ⟨[0x41], [], 0x80, 0x10, 0x300, 0, true, 16, 16, [], []⟩,
    rfl, rfl, by simp, by decide⟩

/-- **C7 (amended).** A 4-byte write of `v` to `LCR_H` whose FEN bit
(bit 4 of `v` as `u32`) DIFFERS from the current `fifo_enabled` state sets
both FIFO depths to 16 (FEN set) or 1 (FEN clear), clears both FIFOs, and
rewrites the four FIFO flag bits of `FR` to `TXFE|RXFE`; in particular
`FR = 0x90` exactly whenever `FR` carried no other bits, as in every
reachable state.  A write whose FEN bit MATCHES the current state only
stores `LCR_H`, leaving FIFOs, depths and `FR` unchanged. -/
theorem lcr_h_fen_transition (st : Pl011) (v : Nat) :
    ((v % 4294967296 &&& 0x10 != 0) ≠ st.fifo_enabled →
      ∃ st', Pl011.write st 0x02C 4 v = .ok st' ∧
        st'.rx_fifo = [] ∧ st'.tx_fifo = [] ∧
        st'.rx_fifo_size =
          (if (v % 4294967296 &&& 0x10 != 0) then 16 else 1) ∧
        st'.tx_fifo_size =
          (if (v % 4294967296 &&& 0x10 != 0) then 16 else 1) ∧
        st'.flags = (st.flags &&& 0xFFFFFF0F) ||| 0x90 ∧
        (st.flags &&& 0xFFFFFF0F = 0 → st'.flags = 0x90)) ∧
    ((v % 4294967296 &&& 0x10 != 0) = st.fifo_enabled →
      Pl011.write st 0x02C 4 v = .ok { st with lcr_h := v % 4294967296 }) := by
  have hw : Pl011.write st 0x02C 4 v =
      .ok (st.write_lcr_h (v % 4294967296)) := by
    unfold Pl011.write
    norm_num
  constructor
  · intro hne
    rw [hw]
    unfold Pl011.write_lcr_h
    rw [if_neg hne]
    cases hb : (v % 4294967296 &&& 0x10 != 0) with
    | true =>
      refine ⟨_, rfl, rfl, rfl, rfl, rfl, ?_, ?_⟩
      · show ((st.flags &&& 0xFFFFFF0F) ||| 0x10) ||| 0x80 =
          (st.flags &&& 0xFFFFFF0F) ||| 0x90
        rw [Nat.or_assoc]
        exact congrArg (fun x => st.flags &&& 0xFFFFFF0F ||| x)
          (by decide : (0x10 : Nat) ||| 0x80 = 0x90)
      · intro h0
        show ((st.flags &&& 0xFFFFFF0F) ||| 0x10) ||| 0x80 = 0x90
        rw [h0]
        decide
    | false =>
      refine ⟨_, rfl, rfl, rfl, rfl, rfl, ?_, ?_⟩
      · show ((st.flags &&& 0xFFFFFF0F) ||| 0x10) ||| 0x80 =
          (st.flags &&& 0xFFFFFF0F) ||| 0x90
        rw [Nat.or_assoc]
        exact congrArg (fun x => st.flags &&& 0xFFFFFF0F ||| x)
          (by decide : (0x10 : Nat) ||| 0x80 = 0x90)
      · intro h0
        show ((st.flags &&& 0xFFFFFF0F) ||| 0x10) ||| 0x80 = 0x90
        rw [h0]
        decide
  · intro heq
    rw [hw]
    unfold Pl011.write_lcr_h
    rw [if_pos heq]

/-- Witness for the amended C7 at a concrete input: from reset (FIFOs
disabled), writing `0x10` to `LCR_H` toggles FEN on. -/
theorem lcr_h_fen_transition_witness :
    ∃ st', Pl011.write Pl011.new 0x02C 4 0x10 = .ok st' ∧
      st'.rx_fifo = [] ∧ st'.tx_fifo = [] ∧
      st'.rx_fifo_size =
        (if (0x10 % 4294967296 &&& 0x10 != 0) then 16 else 1) ∧
      st'.tx_fifo_size =
        (if (0x10 % 4294967296 &&& 0x10 != 0) then 16 else 1) ∧
      st'.flags = (Pl011.new.flags &&& 0xFFFFFF0F) ||| 0x90 ∧
      (Pl011.new.flags &&& 0xFFFFFF0F = 0 → st'.flags = 0x90) :=
  (lcr_h_fen_transition Pl011.new 0x10).1 (by decide)

end SimppleVM

namespace SimppleVM

/-- **C8.** PL011 TX gating.  First conjunct: a 4-byte DR write while
`CR & (UARTEN|TXE) ≠ UARTEN|TXE` (either enable bit clear) returns the
device completely unchanged - the byte is silently dropped before any
state or sink mutation.  Second conjunct: with both bits set and room in
the TX FIFO, exactly the written byte (`value as u8`) is appended to the
host-side sink (output stream plus pending line buffer). -/
theorem dr_write_tx_gating (st : Pl011) (v : Nat) :
    (st.cr &&& 0x101 ≠ 0x101 → Pl011.write st 0x000 4 v = .ok st) ∧
    (st.cr &&& 0x101 = 0x101 → st.tx_fifo.length < st.tx_fifo_size →
      ∃ st', Pl011.write st 0x000 4 v = .ok st' ∧
        st'.sink = st.sink ++ [v % 256]) := by
  have hw : Pl011.write st 0x000 4 v = .ok (st.write_dr (v % 256)) := by
    unfold Pl011.write
    norm_num
  constructor
  · intro h
    rw [hw]
    unfold Pl011.write_dr
    rw [if_pos h]
  · intro h hroom
    rw [hw]
    unfold Pl011.write_dr
    rw [if_neg (not_not_intro h), if_pos hroom]
    refine ⟨_, rfl, ?_⟩
    by_cases hb : v % 256 = 10
    · simp [Pl011.sink, Pl011.update_status, Pl011.handle_transmitted_char,
        hb, List.append_assoc]
    · simp [Pl011.sink, Pl011.update_status, Pl011.handle_transmitted_char,
        hb, List.append_assoc]

/-- Witness for C8 at concrete inputs: from reset (`CR = TXE|RXE`, UARTEN
clear) a DR write of `0x48` is dropped; after enabling UARTEN
(`CR = 0x301`) the same write puts exactly `0x48` on the sink. -/
theorem dr_write_tx_gating_witness :
    Pl011.write Pl011.new 0x000 4 0x48 = .ok Pl011.new ∧
    (∃ st', Pl011.write { Pl011.new with cr := 0x301 } 0x000 4 0x48 =
        .ok st' ∧
      st'.sink = Pl011.sink { Pl011.new with cr := 0x301 } ++ [0x48 % 256]) :=
  ⟨(dr_write_tx_gating Pl011.new 0x48).1 (by decide),
    (dr_write_tx_gating { Pl011.new with cr := 0x301 } 0x48).2
      (by decide) (by decide)⟩

end SimppleVM

namespace SimppleVM

/-- The low byte of a value absorbs a bitwise AND with an 8-bit mask:
`(v % 256) &&& m = v &&& m` whenever `m < 256`. -/
theorem and_mod_256 (v m : Nat) (hm : m < 256) :
    v % 256 &&& m = v &&& m := by
  apply Nat.eq_of_testBit_eq
  intro i
  rcases lt_or_ge i 8 with h | h
  · rw [Nat.testBit_and, Nat.testBit_and,
      show (256 : Nat) = 2 ^ 8 by norm_num, Nat.testBit_mod_two_pow]
    simp [h]
  · have h2 : (256 : Nat) ≤ 2 ^ i :=
      calc (256 : Nat) = 2 ^ 8 := by norm_num
        _ ≤ 2 ^ i := Nat.pow_le_pow_right (by norm_num) h
    have hmb : m.testBit i = false :=
      Nat.testBit_lt_two_pow (lt_of_lt_of_le hm h2)
    simp [Nat.testBit_and, hmb]

/-- `x % 256` is the same as masking with `0xFF`. -/
theorem mod_256_eq_and (x : Nat) : x % 256 = x &&& 0xFF := by
  have h := Nat.and_pow_two_sub_one_eq_mod x 8
  norm_num at h
  exact h.symm

/-- **C9.** PL061 masked data write: for every device state, every offset
in the data window `[0x000, 0x3FC]`, and every valid access size
(`{1,2,4,8}`), a write of `v` updates the data byte to
`(data & ~(mask & direction)) | (v & (mask & direction))` with
`mask = (offset >> 2) & 0xFF` (8-bit complement written as
`0xFF ^^^ ·`), and leaves the direction, interrupt-enable and AFSEL bytes
unchanged (the returned state differs from `st` only in `data`). -/
theorem gpio_masked_write (st : Pl061) (offset size v : Nat)
    (hsize : size = 1 ∨ size = 2 ∨ size = 4 ∨ size = 8)
    (hoff : offset ≤ 0x3FC) :
    Pl061.write st offset size v =
      .ok { st with data :=
        (st.data &&& (0xFF ^^^ ((offset >>> 2 &&& 0xFF) &&& st.direction)))
          ||| (v &&& ((offset >>> 2 &&& 0xFF) &&& st.direction)) } := by
  have hguard : ¬(size > 8 ∨ size = 0 ∨ size &&& (size - 1) ≠ 0) := by
    rcases hsize with h | h | h | h <;> subst h <;> decide
  have hmask : (offset >>> 2) % 256 = offset >>> 2 &&& 0xFF :=
    mod_256_eq_and _
  have hlt : (offset >>> 2 &&& 0xFF) &&& st.direction < 256 :=
    lt_of_le_of_lt (Nat.le_trans Nat.and_le_left Nat.and_le_right)
      (by norm_num)
  unfold Pl061.write
  rw [if_neg hguard, if_pos hoff, hmask,
    and_mod_256 v ((offset >>> 2 &&& 0xFF) &&& st.direction) hlt]

/-- Witness for C9 at a concrete input: writing `0xFF` with size 4 to
offset `0x008` (mask = 2) of a device with `data = 0xAA`,
`direction = 0x0F`. -/
theorem gpio_masked_write_witness :
    Pl061.write ⟨0xAA, 0x0F, 0, 0⟩ 0x008 4 0xFF =
      .ok ⟨(0xAA &&& (0xFF ^^^ ((0x008 >>> 2 &&& 0xFF) &&& 0x0F))) |||
        (0xFF &&& ((0x008 >>> 2 &&& 0xFF) &&& 0x0F)), 0x0F, 0, 0⟩ :=
  gpio_masked_write ⟨0xAA, 0x0F, 0, 0⟩ 0x008 4 0xFF (by decide) (by decide)

end SimppleVM
